import Mathlib

/-!
Verification of the battlesnake board engine (`src/battlesnake/SnakeLogic.py`)
against its specification.

The grid is embedded as `List (List Int)` indexed column-first, as in the
source (`pieces[x][y]`).  Python's ambient randomness (`randint` draws inside
`_random_free_space`) is made explicit as a stream of candidate coordinates.
Methods that raise in Python are embedded as `Except`-valued functions.
-/

/-- The food sentinel cell value. -/
def FOOD : Int := 99

/-- White's color value. -/
def WHITE : Int := 1

/-- Black's color value. -/
def BLACK : Int := -1

/-- Initial and maximal health (`HEALTH` in the source). -/
def HEALTH : Int := 15

/-- Cell lookup `pieces[x][y]`; out-of-range reads default to 0 (all
embedded call sites only read in-range cells of well-formed grids). -/
def cellN (pieces : List (List Int)) (x y : Nat) : Int :=
  (pieces.getD x []).getD y 0

/-- Cell lookup at integer coordinates; the source only evaluates
`self[x][y]` behind a `0 ≤ x < n` and `0 ≤ y < n` guard, where this agrees
with Python indexing. -/
def cellI (pieces : List (List Int)) (x y : Int) : Int :=
  cellN pieces x.toNat y.toNat

/-- Cell update `pieces[x][y] = v`. -/
def setCell (pieces : List (List Int)) (x y : Nat) (v : Int) : List (List Int) :=
  pieces.set x ((pieces.getD x []).set y v)

/-- The all-zero n×n grid built by `Board.__init__`. -/
def emptyGrid (n : Nat) : List (List Int) :=
  List.replicate n (List.replicate n 0)

/-- The board aggregate: dimension, grid, and the two health counters. -/
structure Board where
  n : Nat
  pieces : List (List Int)
  white_health : Int
  black_health : Int
deriving Repr, DecidableEq

/-- The four direction offsets `__directions = [(1,0),(0,-1),(-1,0),(0,1)]`. -/
def directions : List (Int × Int) := [(1, 0), (0, -1), (-1, 0), (0, 1)]

/-- `_random_free_space(pieces, n)`: rejection sampling over a stream of
`randint`-drawn coordinate pairs — the first pair naming an in-range empty
cell is returned together with the unconsumed remainder of the stream.
`none` models the Python loop running the stream out without finding a free
cell (for an exhausted grid the Python loop never terminates). -/
def randomFreeSpace (samples : List (Nat × Nat)) (pieces : List (List Int)) (n : Nat) :
    Option ((Nat × Nat) × List (Nat × Nat)) :=
  match samples with
  | [] => none
  | (x, y) :: rest =>
      if x < n ∧ y < n ∧ cellN pieces x y = 0 then some ((x, y), rest)
      else randomFreeSpace rest pieces n

/-- `Board.__init__(n)`: allocate the zero grid, then place white's piece
(`1`), black's piece (`-1`) and the food (`FOOD`) at three successively
drawn random free cells, and set both health counters to `HEALTH`.  Each
`randomFreeSpace` call consumes a prefix of the draw stream and hands the
rest on, mirroring the three successive `_random_free_space` calls. -/
def constructBoard (n : Nat) (samples : List (Nat × Nat)) : Option Board :=
  (randomFreeSpace samples (emptyGrid n) n).bind (fun r1 =>
    (randomFreeSpace r1.2 (setCell (emptyGrid n) r1.1.1 r1.1.2 1) n).bind (fun r2 =>
      (randomFreeSpace r2.2
        (setCell (setCell (emptyGrid n) r1.1.1 r1.1.2 1) r2.1.1 r2.1.2 (-1)) n).bind (fun r3 =>
        some { n := n,
               pieces := setCell
                 (setCell (setCell (emptyGrid n) r1.1.1 r1.1.2 1) r2.1.1 r2.1.2 (-1))
                 r3.1.1 r3.1.2 FOOD,
               white_health := HEALTH, black_health := HEALTH })))

/-- The grid values in the scan order used by `countDiff` (`for y: for x`). -/
def boardCells (b : Board) : List Int :=
  (List.range b.n).flatMap (fun y => (List.range b.n).map (fun x => cellN b.pieces x y))

/-- `countDiff(color)`: count white cells (`!= FOOD and > 0`) and black
cells (`!= FOOD and < 0`) over the whole grid and return the difference
oriented to the queried color. -/
def countDiff (b : Board) (color : Int) : Int :=
  let white_count := ((boardCells b).filter (fun v => decide (v ≠ FOOD ∧ v > 0))).length
  let black_count := ((boardCells b).filter (fun v => decide (v ≠ FOOD ∧ v < 0))).length
  if color = WHITE then (white_count : Int) - (black_count : Int)
  else (black_count : Int) - (white_count : Int)

/-- `get_moves_for_square(square)`: `None` unless the square's value is
exactly `1` or `-1`; otherwise the directions whose destination is in
bounds (`self.n > x >= 0 and self.n > y >= 0`) and holds `0` or `FOOD`. -/
def get_moves_for_square (b : Board) (square : Nat × Nat) : Option (List (Int × Int)) :=
  if cellN b.pieces square.1 square.2 ≠ 1 ∧ cellN b.pieces square.1 square.2 ≠ -1 then none
  else some (directions.filter (fun d =>
    decide (((b.n : Int) > (square.1 : Int) + d.1 ∧ (square.1 : Int) + d.1 ≥ 0) ∧
      ((b.n : Int) > (square.2 : Int) + d.2 ∧ (square.2 : Int) + d.2 ≥ 0) ∧
      (cellI b.pieces ((square.1 : Int) + d.1) ((square.2 : Int) + d.2) = 0 ∨
       cellI b.pieces ((square.1 : Int) + d.1) ((square.2 : Int) + d.2) = FOOD))))

/-- `get_legal_moves(color)`: scan `for y: for x`, and for every square whose
value equals `color` append the `get_moves_for_square` result itself — the
returned value is a list of per-square results, not a flattened union. -/
def get_legal_moves (b : Board) (color : Int) : List (Option (List (Int × Int))) :=
  (List.range b.n).flatMap (fun y =>
    (List.range b.n).filterMap (fun x =>
      if cellN b.pieces x y = color then some (get_moves_for_square b (x, y)) else none))

/-- `has_legal_moves(color) = len(get_legal_moves(color)) > 0`. -/
def has_legal_moves (b : Board) (color : Int) : Bool :=
  decide ((get_legal_moves b color).length > 0)

/-- The Python exceptions the embedded methods can raise. -/
inductive SnakeErr where
  | typeError
deriving Repr, DecidableEq

/-- `_find_head(color)`: the Python body is `for x in self.n: for y in self.n: ...`
— it iterates over the integer field `self.n` itself, so its very first
statement raises `TypeError: 'int' object is not iterable`, on every board
and color. -/
def _find_head (_b : Board) (_color : Int) : Except SnakeErr (Nat × Nat) :=
  Except.error SnakeErr.typeError

/-- `_find_tail(color)`: like `_find_head`, its body opens with
`for x in self.n`, which raises `TypeError` immediately (before the
`self[largest_white_x][...]` accesses, which would themselves fault on the
initial `None` indices). -/
def _find_tail (_b : Board) (_color : Int) : Except SnakeErr (Nat × Nat) :=
  Except.error SnakeErr.typeError

/-- `_remove_snake(color)`: zero every cell whose sign matches the color,
keeping `FOOD` and the opponent's cells. -/
def _remove_snake (b : Board) (color : Int) : Board :=
  if color = WHITE then
    { b with pieces := b.pieces.map (fun col => col.map (fun x =>
        if x ≠ FOOD ∧ x > 0 then 0 else x)) }
  else if color = BLACK then
    { b with pieces := b.pieces.map (fun col => col.map (fun x =>
        if x ≠ FOOD ∧ x < 0 then 0 else x)) }
  else b

/-- `_move_snake(color, head, move, add_to_tail)`: the body copies the grid
and then calls `_find_tail`, which always raises `TypeError`; the remaining
Python statements (tail removal, the list-semantics increment loop
`temp_board[temp_board == x] = x + 1 * color`, and the new-head write) are
dead code, so the call never yields a board. -/
def _move_snake (b : Board) (color : Int) (_head : Nat × Nat) (_move : Int × Int)
    (_add_to_tail : Bool) : Except SnakeErr Board :=
  (_find_tail b color).bind (fun _tail => Except.error SnakeErr.typeError)

/-- `execute_move(move, color)`: the first effectful statement is
`origin_x, origin_y = self._find_head(color)`, which always raises
`TypeError`, so the health bookkeeping and the food / collision /
ordinary-move branches of the Python source below it never run and the
board is never modified. -/
def execute_move (b : Board) (move : Int × Int) (color : Int) : Except SnakeErr Board :=
  (_find_head b color).bind (fun _origin =>
    Except.error SnakeErr.typeError)

/-- The board states an external driver can actually reach: freshly
constructed boards, plus anything `execute_move` successfully produces. -/
inductive Reachable : Board → Prop where
  | init (n : Nat) (samples : List (Nat × Nat)) (b : Board)
      (h : constructBoard n samples = some b) : Reachable b
  | step (b : Board) (move : Int × Int) (color : Int) (b' : Board)
      (hr : Reachable b) (h : execute_move b move color = Except.ok b') : Reachable b'

/-- A cell value belonging to the given side, with the sign tests used by
`countDiff` and `_remove_snake` (food excluded). -/
def isSideCell (s v : Int) : Bool :=
  if s = WHITE then decide (v ≠ FOOD ∧ v > 0) else decide (v ≠ FOOD ∧ v < 0)

/-- A grid that is genuinely n×n, as `Board.__init__` builds it. -/
def wfGrid (pieces : List (List Int)) (n : Nat) : Prop :=
  pieces.length = n ∧ ∀ x, x < n → (pieces.getD x []).length = n

/-- The squares holding exactly the queried color value, in the `for y: for x`
scan order of `get_legal_moves`. -/
def matchingSquares (b : Board) (color : Int) : List (Nat × Nat) :=
  (List.range b.n).flatMap (fun y =>
    (List.range b.n).filterMap (fun x =>
      if cellN b.pieces x y = color then some (x, y) else none))

/-- Following the spec's words (not the code): the duplicate-free union of
the legal directions available from every cell belonging to the side. -/
def specLegalUnion (b : Board) (color : Int) : List (Int × Int) :=
  ((matchingSquares b color).flatMap (fun sq => (get_moves_for_square b sq).getD [])).dedup

/-- Following the spec's words (not the code): a square is occupied iff its
cell is non-zero and non-food, and an occupied square's legal directions are
exactly those with an in-bounds, empty-or-food destination. -/
def specMovesForSquare (b : Board) (square : Nat × Nat) : Option (List (Int × Int)) :=
  if cellN b.pieces square.1 square.2 = 0 ∨ cellN b.pieces square.1 square.2 = FOOD then none
  else some (directions.filter (fun d =>
    decide (((b.n : Int) > (square.1 : Int) + d.1 ∧ (square.1 : Int) + d.1 ≥ 0) ∧
      ((b.n : Int) > (square.2 : Int) + d.2 ∧ (square.2 : Int) + d.2 ≥ 0) ∧
      (cellI b.pieces ((square.1 : Int) + d.1) ((square.2 : Int) + d.2) = 0 ∨
       cellI b.pieces ((square.1 : Int) + d.1) ((square.2 : Int) + d.2) = FOOD))))

/-- A board that `constructBoard 2 [(0,0),(0,1),(1,0)]` produces: white at
(0,0), black at (0,1), food at (1,0). -/
def demoBoard : Board :=
  { n := 2, pieces := [[1, -1], [99, 0]], white_health := 15, black_health := 15 }

/-- White head at (0,0), food at (1,1), black head at (2,2): the destination
(1,0) of the move (1,0) is empty. -/
def emptyDestBoard : Board :=
  { n := 3, pieces := [[1, 0, 0], [0, 99, 0], [0, 0, -1]],
    white_health := 15, black_health := 15 }

/-- White head at (0,0) with the food directly at the destination (0,1) of
the move (0,1). -/
def foodDestBoard : Board :=
  { n := 2, pieces := [[1, 99], [0, 0]], white_health := 15, black_health := 15 }

/-- White head at (0,0) with black's cell at the destination (0,1) of the
move (0,1): a collision situation. -/
def collisionBoard : Board :=
  { n := 2, pieces := [[1, -1], [0, 0]], white_health := 15, black_health := 15 }

/-- A board whose only occupied cell is a food cell. -/
def foodOnlyBoard : Board :=
  { n := 2, pieces := [[99, 0], [0, 0]], white_health := 15, black_health := 15 }

/-- A 1×1 board fully occupied by a single white cell: white exists but has
no legal direction anywhere. -/
def oneCellBoard : Board :=
  { n := 1, pieces := [[1]], white_health := 15, black_health := 15 }

/-- A length-2 white snake: cell (0,0) holds 2, cell (0,1) holds 1. -/
def twoSegmentBoard : Board :=
  { n := 2, pieces := [[2, 1], [0, 0]], white_health := 15, black_health := 15 }

theorem getD_set_self {α : Type} (l : List α) (i : Nat) (a d : α) (h : i < l.length) :
    (l.set i a).getD i d = a := by
  rw [List.getD_eq_getElem?_getD, List.getElem?_set_self h, Option.getD_some]

theorem getD_set_ne {α : Type} (l : List α) {i j : Nat} (h : i ≠ j) (a d : α) :
    (l.set i a).getD j d = l.getD j d := by
  rw [List.getD_eq_getElem?_getD, List.getElem?_set_ne h, ← List.getD_eq_getElem?_getD]

theorem getD_of_length_le {α : Type} (l : List α) {i : Nat} (h : l.length ≤ i) (d : α) :
    l.getD i d = d := by
  rw [List.getD_eq_getElem?_getD, List.getElem?_eq_none h, Option.getD_none]

theorem getD_replicate_eval {α : Type} (n i : Nat) (a d : α) :
    (List.replicate n a).getD i d = if i < n then a else d := by
  rw [List.getD_eq_getElem?_getD, List.getElem?_replicate]
  split <;> rfl

theorem cellN_emptyGrid (n x y : Nat) : cellN (emptyGrid n) x y = 0 := by
  unfold cellN emptyGrid
  rw [getD_replicate_eval]
  split
  · rw [getD_replicate_eval]; split <;> rfl
  · rfl

theorem wfGrid_emptyGrid (n : Nat) : wfGrid (emptyGrid n) n := by
  constructor
  · exact List.length_replicate n _
  · intro x hx
    unfold emptyGrid
    rw [getD_replicate_eval, if_pos hx, List.length_replicate]

theorem wfGrid_setCell {pieces : List (List Int)} {n : Nat} (h : wfGrid pieces n)
    (x y : Nat) (v : Int) : wfGrid (setCell pieces x y v) n := by
  constructor
  · rw [setCell, List.length_set]; exact h.1
  · intro x' hx'
    by_cases hxx : x = x'
    · subst hxx
      have hxl : x < pieces.length := h.1 ▸ hx'
      rw [setCell, getD_set_self _ _ _ _ hxl, List.length_set]
      exact h.2 x hx'
    · rw [setCell, getD_set_ne _ hxx]
      exact h.2 x' hx'

theorem cellN_setCell_self {pieces : List (List Int)} {n : Nat} (hwf : wfGrid pieces n)
    {x y : Nat} (hx : x < n) (hy : y < n) (v : Int) :
    cellN (setCell pieces x y v) x y = v := by
  have hxl : x < pieces.length := hwf.1 ▸ hx
  have hyl : y < (pieces.getD x []).length := (hwf.2 x hx).symm ▸ hy
  rw [cellN, setCell, getD_set_self _ _ _ _ hxl, getD_set_self _ _ _ _ hyl]

theorem cellN_setCell_ne (pieces : List (List Int)) {x y x' y' : Nat}
    (hne : ¬(x = x' ∧ y = y')) (v : Int) :
    cellN (setCell pieces x y v) x' y' = cellN pieces x' y' := by
  by_cases hxx : x = x'
  · subst hxx
    have hyy : y ≠ y' := fun hy => hne ⟨rfl, hy⟩
    by_cases hxl : x < pieces.length
    · rw [cellN, setCell, getD_set_self _ _ _ _ hxl, getD_set_ne _ hyy, cellN]
    · push_neg at hxl
      have h1 : (pieces.set x ((pieces.getD x []).set y v)).getD x [] = ([] : List Int) :=
        getD_of_length_le _ (by rw [List.length_set]; exact hxl) _
      have h2 : pieces.getD x [] = ([] : List Int) := getD_of_length_le _ hxl _
      rw [cellN, setCell, h1, cellN, h2]
  · rw [cellN, setCell, getD_set_ne _ hxx, cellN]

theorem randomFreeSpace_some {samples : List (Nat × Nat)} {pieces : List (List Int)}
    {n : Nat} {p : Nat × Nat} {rest : List (Nat × Nat)}
    (h : randomFreeSpace samples pieces n = some (p, rest)) :
    p.1 < n ∧ p.2 < n ∧ cellN pieces p.1 p.2 = 0 := by
  induction samples with
  | nil => exact absurd h (by simp [randomFreeSpace])
  | cons hd tl ih =>
    obtain ⟨x, y⟩ := hd
    rw [randomFreeSpace] at h
    by_cases hc : x < n ∧ y < n ∧ cellN pieces x y = 0
    · rw [if_pos hc] at h
      cases h
      exact hc
    · rw [if_neg hc] at h
      exact ih h

theorem randomFreeSpace_none {pieces : List (List Int)} {n : Nat}
    (hfull : ∀ x y, x < n → y < n → cellN pieces x y ≠ 0)
    (samples : List (Nat × Nat)) : randomFreeSpace samples pieces n = none := by
  induction samples with
  | nil => rfl
  | cons hd tl ih =>
    obtain ⟨x, y⟩ := hd
    rw [randomFreeSpace, if_neg, ih]
    rintro ⟨h1, h2, h3⟩
    exact hfull x y h1 h2 h3

theorem execute_move_err (b : Board) (move : Int × Int) (color : Int) :
    execute_move b move color = Except.error SnakeErr.typeError := rfl

theorem constructBoard_char {n : Nat} {samples : List (Nat × Nat)} {b : Board}
    (h : constructBoard n samples = some b) :
    b.n = n ∧ b.white_health = HEALTH ∧ b.black_health = HEALTH ∧
    ∃ p1 p2 p3 : Nat × Nat,
      p1.1 < n ∧ p1.2 < n ∧ p2.1 < n ∧ p2.2 < n ∧ p3.1 < n ∧ p3.2 < n ∧
      p1 ≠ p2 ∧ p1 ≠ p3 ∧ p2 ≠ p3 ∧
      ∀ x y : Nat, cellN b.pieces x y =
        if (x, y) = p3 then FOOD else if (x, y) = p2 then -1
        else if (x, y) = p1 then 1 else 0 := by
  unfold constructBoard at h
  rw [Option.bind_eq_some] at h
  obtain ⟨⟨⟨p1x, p1y⟩, s1⟩, h1, h⟩ := h
  rw [Option.bind_eq_some] at h
  obtain ⟨⟨⟨p2x, p2y⟩, s2⟩, h2, h⟩ := h
  rw [Option.bind_eq_some] at h
  obtain ⟨⟨⟨p3x, p3y⟩, s3⟩, h3, h⟩ := h
  obtain rfl := (Option.some.inj h).symm
  dsimp only at h1 h2 h3 ⊢
  obtain ⟨hx1, hy1, _hc1⟩ := randomFreeSpace_some h1
  obtain ⟨hx2, hy2, hc2⟩ := randomFreeSpace_some h2
  obtain ⟨hx3, hy3, hc3⟩ := randomFreeSpace_some h3
  have hwf0 := wfGrid_emptyGrid n
  have hwf1 := wfGrid_setCell hwf0 p1x p1y 1
  have hwf2 := wfGrid_setCell hwf1 p2x p2y (-1)
  have hg1p1 : cellN (setCell (emptyGrid n) p1x p1y 1) p1x p1y = 1 :=
    cellN_setCell_self hwf0 hx1 hy1 1
  have hne21 : ¬((p2x, p2y) = (p1x, p1y)) := by
    intro he
    rw [Prod.mk.injEq] at he
    obtain ⟨ha, hb⟩ := he
    subst ha; subst hb
    rw [hg1p1] at hc2
    exact absurd hc2 (by norm_num)
  have hg2p1 : cellN (setCell (setCell (emptyGrid n) p1x p1y 1) p2x p2y (-1)) p1x p1y = 1 := by
    rw [cellN_setCell_ne _ (fun hc => hne21 (by rw [Prod.mk.injEq]; exact hc))]
    exact hg1p1
  have hg2p2 : cellN (setCell (setCell (emptyGrid n) p1x p1y 1) p2x p2y (-1)) p2x p2y = -1 :=
    cellN_setCell_self hwf1 hx2 hy2 (-1)
  have hne31 : ¬((p3x, p3y) = (p1x, p1y)) := by
    intro he
    rw [Prod.mk.injEq] at he
    obtain ⟨ha, hb⟩ := he
    subst ha; subst hb
    rw [hg2p1] at hc3
    exact absurd hc3 (by norm_num)
  have hne32 : ¬((p3x, p3y) = (p2x, p2y)) := by
    intro he
    rw [Prod.mk.injEq] at he
    obtain ⟨ha, hb⟩ := he
    subst ha; subst hb
    rw [hg2p2] at hc3
    exact absurd hc3 (by norm_num)
  refine ⟨rfl, rfl, rfl, (p1x, p1y), (p2x, p2y), (p3x, p3y),
    hx1, hy1, hx2, hy2, hx3, hy3, fun he => hne21 he.symm, fun he => hne31 he.symm,
    fun he => hne32 he.symm, ?_⟩
  intro x y
  by_cases h3' : (x, y) = (p3x, p3y)
  · rw [if_pos h3']
    rw [Prod.mk.injEq] at h3'
    obtain ⟨rfl, rfl⟩ := h3'
    exact cellN_setCell_self hwf2 hx3 hy3 FOOD
  · rw [if_neg h3',
      cellN_setCell_ne _ (fun hc => h3' (by rw [Prod.mk.injEq]; exact ⟨hc.1.symm, hc.2.symm⟩))]
    by_cases h2' : (x, y) = (p2x, p2y)
    · rw [if_pos h2']
      rw [Prod.mk.injEq] at h2'
      obtain ⟨rfl, rfl⟩ := h2'
      exact cellN_setCell_self hwf1 hx2 hy2 (-1)
    · rw [if_neg h2',
        cellN_setCell_ne _ (fun hc => h2' (by rw [Prod.mk.injEq]; exact ⟨hc.1.symm, hc.2.symm⟩))]
      by_cases h1' : (x, y) = (p1x, p1y)
      · rw [if_pos h1']
        rw [Prod.mk.injEq] at h1'
        obtain ⟨rfl, rfl⟩ := h1'
        exact cellN_setCell_self hwf0 hx1 hy1 1
      · rw [if_neg h1',
          cellN_setCell_ne _ (fun hc => h1' (by rw [Prod.mk.injEq]; exact ⟨hc.1.symm, hc.2.symm⟩))]
        exact cellN_emptyGrid n x y

/-- Claim C7: for every n with n*n ≥ 3 and every draw sequence the sampler
accepts, a freshly constructed board has exactly one `+1` cell, exactly one
`-1` cell and exactly one `FOOD` cell, at three distinct in-range
coordinates, every other cell is 0, and both health counters are 15. -/
theorem constructBoard_placement_invariant :
    ∀ (n : Nat) (samples : List (Nat × Nat)) (b : Board),
      3 ≤ n * n → constructBoard n samples = some b →
      b.white_health = HEALTH ∧ b.black_health = HEALTH ∧
      ∃ pw pb pf : Nat × Nat,
        pw ≠ pb ∧ pw ≠ pf ∧ pb ≠ pf ∧
        pw.1 < n ∧ pw.2 < n ∧ pb.1 < n ∧ pb.2 < n ∧ pf.1 < n ∧ pf.2 < n ∧
        cellN b.pieces pw.1 pw.2 = 1 ∧ cellN b.pieces pb.1 pb.2 = -1 ∧
        cellN b.pieces pf.1 pf.2 = FOOD ∧
        (∀ x y : Nat, cellN b.pieces x y = 1 → (x, y) = pw) ∧
        (∀ x y : Nat, cellN b.pieces x y = -1 → (x, y) = pb) ∧
        (∀ x y : Nat, cellN b.pieces x y = FOOD → (x, y) = pf) ∧
        (∀ x y : Nat, (x, y) ≠ pw → (x, y) ≠ pb → (x, y) ≠ pf →
          cellN b.pieces x y = 0) := by
  intro n samples b _hn h
  obtain ⟨-, hwh, hbh, p1, p2, p3, hx1, hy1, hx2, hy2, hx3, hy3, h12, h13, h23, hchar⟩ :=
    constructBoard_char h
  refine ⟨hwh, hbh, p1, p2, p3, h12, h13, h23, hx1, hy1, hx2, hy2, hx3, hy3, ?_, ?_, ?_,
    ?_, ?_, ?_, ?_⟩
  · have hc := hchar p1.1 p1.2
    rw [Prod.mk.eta, if_neg h13, if_neg h12, if_pos rfl] at hc
    exact hc
  · have hc := hchar p2.1 p2.2
    rw [Prod.mk.eta, if_neg h23, if_pos rfl] at hc
    exact hc
  · have hc := hchar p3.1 p3.2
    rw [Prod.mk.eta, if_pos rfl] at hc
    exact hc
  · intro x y hv
    have hc := hchar x y
    rw [hv] at hc
    split_ifs at hc with hA hB hC <;>
      first
        | exact hC
        | exact absurd hc (by norm_num [FOOD])
  · intro x y hv
    have hc := hchar x y
    rw [hv] at hc
    split_ifs at hc with hA hB hC <;>
      first
        | exact hB
        | exact absurd hc (by norm_num [FOOD])
  · intro x y hv
    have hc := hchar x y
    rw [hv] at hc
    split_ifs at hc with hA hB hC <;>
      first
        | exact hA
        | exact absurd hc (by norm_num [FOOD])
  · intro x y hw hb' hf
    have hc := hchar x y
    rw [if_neg hf, if_neg hb', if_neg hw] at hc
    exact hc

/-- Witness for C7: the 2×2 construction from the draws
(0,0), (0,1), (1,0) satisfies the placement invariant. -/
theorem constructBoard_placement_invariant_witness :
    demoBoard.white_health = HEALTH ∧ demoBoard.black_health = HEALTH ∧
    ∃ pw pb pf : Nat × Nat,
      pw ≠ pb ∧ pw ≠ pf ∧ pb ≠ pf ∧
      pw.1 < 2 ∧ pw.2 < 2 ∧ pb.1 < 2 ∧ pb.2 < 2 ∧ pf.1 < 2 ∧ pf.2 < 2 ∧
      cellN demoBoard.pieces pw.1 pw.2 = 1 ∧ cellN demoBoard.pieces pb.1 pb.2 = -1 ∧
      cellN demoBoard.pieces pf.1 pf.2 = FOOD ∧
      (∀ x y : Nat, cellN demoBoard.pieces x y = 1 → (x, y) = pw) ∧
      (∀ x y : Nat, cellN demoBoard.pieces x y = -1 → (x, y) = pb) ∧
      (∀ x y : Nat, cellN demoBoard.pieces x y = FOOD → (x, y) = pf) ∧
      (∀ x y : Nat, (x, y) ≠ pw → (x, y) ≠ pb → (x, y) ≠ pf →
        cellN demoBoard.pieces x y = 0) :=
  constructBoard_placement_invariant 2 [(0, 0), (0, 1), (1, 0)] demoBoard
    (by norm_num) rfl

/-- Claim C4: on every reachable board state each side occupies exactly one
cell, holding exactly its color value (magnitude 1).  Its head and tail
therefore coincide, the occupied magnitudes are the contiguous set {1..L}
with L = 1, and the head realizes the maximal magnitude; `execute_move`
preserves this trivially, since it always raises before mutating. -/
theorem reachable_board_snake_encoding :
    ∀ b : Board, Reachable b → ∀ s : Int, s = WHITE ∨ s = BLACK →
      ∃ p : Nat × Nat, p.1 < b.n ∧ p.2 < b.n ∧ cellN b.pieces p.1 p.2 = s ∧
        ∀ x y : Nat, isSideCell s (cellN b.pieces x y) = true → (x, y) = p := by
  intro b hb
  induction hb with
  | init n samples b h =>
    obtain ⟨hn, -, -, p1, p2, p3, hx1, hy1, hx2, hy2, hx3, hy3, h12, h13, h23, hchar⟩ :=
      constructBoard_char h
    subst hn
    intro s hs
    rcases hs with rfl | rfl
    · refine ⟨p1, hx1, hy1, ?_, ?_⟩
      · have hc := hchar p1.1 p1.2
        rw [Prod.mk.eta, if_neg h13, if_neg h12, if_pos rfl] at hc
        exact hc
      · intro x y hside
        have hc := hchar x y
        rw [hc] at hside
        split_ifs at hside with hA hB hC
        · exact absurd hside (by decide)
        · exact absurd hside (by decide)
        · exact hC
        · exact absurd hside (by decide)
    · refine ⟨p2, hx2, hy2, ?_, ?_⟩
      · have hc := hchar p2.1 p2.2
        rw [Prod.mk.eta, if_neg h23, if_pos rfl] at hc
        exact hc
      · intro x y hside
        have hc := hchar x y
        rw [hc] at hside
        split_ifs at hside with hA hB hC
        · exact absurd hside (by decide)
        · exact hB
        · exact absurd hside (by decide)
        · exact absurd hside (by decide)
  | step b move color b' hr h ih =>
    rw [execute_move_err] at h
    exact Except.noConfusion h

/-- Witness for C4: the white side of the freshly constructed `demoBoard`
occupies the single cell (0,0). -/
theorem reachable_board_snake_encoding_witness :
    ∃ p : Nat × Nat, p.1 < demoBoard.n ∧ p.2 < demoBoard.n ∧
      cellN demoBoard.pieces p.1 p.2 = WHITE ∧
      ∀ x y : Nat, isSideCell WHITE (cellN demoBoard.pieces x y) = true → (x, y) = p :=
  reachable_board_snake_encoding demoBoard
    (Reachable.init 2 [(0, 0), (0, 1), (1, 0)] demoBoard rfl) WHITE (Or.inl rfl)

/-- Claim C10: every `execute_move` call raises `TypeError` during the
initial `_find_head` lookup (Python iterates `for x in self.n` over the
integer field), so no call ever yields a mutated board. -/
theorem execute_move_always_raises :
    ∀ (b : Board) (move : Int × Int) (color : Int),
      execute_move b move color = Except.error SnakeErr.typeError :=
  fun b move color => execute_move_err b move color

/-- Claim C1 (code bug evidence): with white's head at (0,0) and the empty
destination (1,0), `execute_move` raises `TypeError` instead of performing
the documented ordinary move. -/
theorem execute_move_raises_on_empty_destination :
    cellN emptyDestBoard.pieces 0 0 = WHITE ∧ cellN emptyDestBoard.pieces 1 0 = 0 ∧
    emptyDestBoard.white_health = 15 ∧
    execute_move emptyDestBoard (1, 0) WHITE = Except.error SnakeErr.typeError :=
  ⟨rfl, rfl, rfl, rfl⟩

/-- Claim C2 (code bug evidence): with white's head at (0,0) and `FOOD` at
the destination (0,1), `execute_move` raises `TypeError` instead of growing
the snake and respawning food. -/
theorem execute_move_raises_on_food_destination :
    cellN foodDestBoard.pieces 0 0 = WHITE ∧ cellN foodDestBoard.pieces 0 1 = FOOD ∧
    execute_move foodDestBoard (0, 1) WHITE = Except.error SnakeErr.typeError :=
  ⟨rfl, rfl, rfl⟩

/-- Claim C3 (code bug evidence): with white's head at (0,0) and black's
cell at the destination (0,1), `execute_move` raises `TypeError` before ever
reaching the collision branch; the `_remove_snake` helper that branch would
call does implement the documented zeroing, but is never reached. -/
theorem execute_move_raises_on_collision :
    cellN collisionBoard.pieces 0 0 = WHITE ∧ cellN collisionBoard.pieces 0 1 = BLACK ∧
    execute_move collisionBoard (0, 1) WHITE = Except.error SnakeErr.typeError ∧
    (_remove_snake collisionBoard WHITE).pieces = [[0, -1], [0, 0]] :=
  ⟨rfl, rfl, rfl, by decide⟩

/-- Claim C8 (code bug evidence): on a 1×1 grid (n*n = 1 < 3) no draw
sequence whatsoever completes construction — after white's placement no
empty cell remains, so the rejection-sampling loop can never find the second
placement (in Python: an infinite loop, not an `InvalidBoardSize` signal). -/
theorem constructBoard_too_small_never_succeeds :
    ∀ samples : List (Nat × Nat), constructBoard 1 samples = none := by
  intro samples
  unfold constructBoard
  cases h1 : randomFreeSpace samples (emptyGrid 1) 1 with
  | none => rfl
  | some r1 =>
    obtain ⟨⟨x, y⟩, s1⟩ := r1
    obtain ⟨hx, hy, -⟩ := randomFreeSpace_some h1
    obtain rfl : x = 0 := Nat.lt_one_iff.mp hx
    obtain rfl : y = 0 := Nat.lt_one_iff.mp hy
    have hfull : ∀ a c : Nat, a < 1 → c < 1 →
        cellN (setCell (emptyGrid 1) 0 0 1) a c ≠ 0 := by
      intro a c ha hc
      obtain rfl : a = 0 := Nat.lt_one_iff.mp ha
      obtain rfl : c = 0 := Nat.lt_one_iff.mp hc
      rw [cellN_setCell_self (wfGrid_emptyGrid 1) Nat.one_pos Nat.one_pos 1]
      norm_num
    rw [Option.some_bind]
    dsimp only
    rw [randomFreeSpace_none hfull s1]
    rfl

/-- Claim C9: `countDiff` is antisymmetric between the two sides, and a
board whose only occupied cell is food scores 0 for both sides (the food
sentinel counts toward neither side's material). -/
theorem countDiff_symmetry :
    (∀ b : Board, countDiff b WHITE = - countDiff b BLACK) ∧
    countDiff foodOnlyBoard WHITE = 0 ∧ countDiff foodOnlyBoard BLACK = 0 := by
  refine ⟨fun b => ?_, by decide, by decide⟩
  unfold countDiff
  norm_num [WHITE, BLACK]

/-- Counterexample to C5: on the 1×1 board whose single cell is white,
`has_legal_moves(white)` is true although the union of legal directions over
white's cells is empty — refuting "has_legal_moves(side) is true iff that
set is non-empty". -/
theorem has_legal_moves_true_with_empty_union :
    has_legal_moves oneCellBoard WHITE = true ∧ specLegalUnion oneCellBoard WHITE = [] := by
  constructor
  · decide
  · decide

/-- Claim C5 as amended: `get_legal_moves` returns the list of per-square
`get_moves_for_square` results of the squares holding exactly the queried
color, in scan order (not a flattened, duplicate-free union), and
`has_legal_moves` is true iff at least one square holds that color value —
even when none of those squares has a legal direction. -/
theorem get_legal_moves_per_square_lists :
    ∀ (b : Board) (color : Int),
      get_legal_moves b color =
        (matchingSquares b color).map (fun sq => get_moves_for_square b sq) ∧
      (has_legal_moves b color = true ↔ matchingSquares b color ≠ []) := by
  intro b color
  have heq : get_legal_moves b color =
      (matchingSquares b color).map (fun sq => get_moves_for_square b sq) := by
    unfold get_legal_moves matchingSquares
    rw [List.map_flatMap]
    congr 1
    funext y
    rw [List.map_filterMap]
    congr 1
    funext x
    by_cases hc : cellN b.pieces x y = color
    · rw [if_pos hc, if_pos hc]
      rfl
    · rw [if_neg hc, if_neg hc]
      rfl
  refine ⟨heq, ?_⟩
  unfold has_legal_moves
  rw [decide_eq_true_iff, heq, List.length_map]
  exact List.length_pos

/-- Counterexample to C6: the square (0,0) of `twoSegmentBoard` holds the
white body/head value 2, yet `get_moves_for_square` returns `None` for it,
while the spec's occupancy reading demands the direction list [(1,0)]. -/
theorem get_moves_for_square_none_on_body_value :
    cellN twoSegmentBoard.pieces 0 0 = 2 ∧
    get_moves_for_square twoSegmentBoard (0, 0) = none ∧
    specMovesForSquare twoSegmentBoard (0, 0) = some [(1, 0)] := by
  refine ⟨rfl, ?_, ?_⟩
  · decide
  · decide

/-- Claim C6 as amended: `get_moves_for_square` yields a direction list only
for squares whose cell value is exactly `+1` or `-1`; for every other square
(empty, food, or a body/head segment of magnitude ≥ 2) it yields `None`, and
a returned list holds exactly the directions of `__directions` whose
destination is in-bounds and currently empty or food. -/
theorem get_moves_for_square_characterization :
    ∀ (b : Board) (sq : Nat × Nat),
      (get_moves_for_square b sq = none ↔
        ¬(cellN b.pieces sq.1 sq.2 = 1 ∨ cellN b.pieces sq.1 sq.2 = -1)) ∧
      ∀ d : Int × Int,
        (∃ ms, get_moves_for_square b sq = some ms ∧ d ∈ ms) ↔
          ((cellN b.pieces sq.1 sq.2 = 1 ∨ cellN b.pieces sq.1 sq.2 = -1) ∧
           d ∈ directions ∧
           ((b.n : Int) > (sq.1 : Int) + d.1 ∧ (sq.1 : Int) + d.1 ≥ 0) ∧
           ((b.n : Int) > (sq.2 : Int) + d.2 ∧ (sq.2 : Int) + d.2 ≥ 0) ∧
           (cellI b.pieces ((sq.1 : Int) + d.1) ((sq.2 : Int) + d.2) = 0 ∨
            cellI b.pieces ((sq.1 : Int) + d.1) ((sq.2 : Int) + d.2) = FOOD)) := by
  intro b sq
  by_cases hor : cellN b.pieces sq.1 sq.2 = 1 ∨ cellN b.pieces sq.1 sq.2 = -1
  · have hsome : get_moves_for_square b sq = some (directions.filter (fun d =>
        decide (((b.n : Int) > (sq.1 : Int) + d.1 ∧ (sq.1 : Int) + d.1 ≥ 0) ∧
          ((b.n : Int) > (sq.2 : Int) + d.2 ∧ (sq.2 : Int) + d.2 ≥ 0) ∧
          (cellI b.pieces ((sq.1 : Int) + d.1) ((sq.2 : Int) + d.2) = 0 ∨
           cellI b.pieces ((sq.1 : Int) + d.1) ((sq.2 : Int) + d.2) = FOOD)))) := by
      unfold get_moves_for_square
      rw [if_neg (fun hand => hor.elim hand.1 hand.2)]
    constructor
    · rw [hsome]
      exact iff_of_false (by simp) (fun hno => hno hor)
    · intro d
      rw [hsome]
      constructor
      · rintro ⟨ms, hms, hd⟩
        obtain rfl := (Option.some.inj hms).symm
        rw [List.mem_filter] at hd
        have hcond := of_decide_eq_true hd.2
        exact ⟨hor, hd.1, hcond.1, hcond.2.1, hcond.2.2⟩
      · rintro ⟨-, hdir, h1, h2, h3⟩
        exact ⟨_, rfl, List.mem_filter.mpr ⟨hdir, decide_eq_true ⟨h1, h2, h3⟩⟩⟩
  · have hnone : get_moves_for_square b sq = none := by
      unfold get_moves_for_square
      rw [if_pos ⟨fun h1 => hor (Or.inl h1), fun h2 => hor (Or.inr h2)⟩]
    constructor
    · exact iff_of_true hnone hor
    · intro d
      constructor
      · rintro ⟨ms, hms, -⟩
        rw [hnone] at hms
        exact Option.noConfusion hms
      · rintro ⟨h1, -⟩
        exact absurd h1 hor
